import Mathlib

/-!
Verification development for the Ledger Reporting component of the
expense/income tracker in `src/app.py`.

Shallow embedding conventions:
* one spreadsheet row is a `RawRow`; the results of the external parsers
  (`pd.to_numeric(errors := coerce)` for `monto` and the id column,
  `pd.to_datetime(errors := coerce)` for `fecha`) are embedded as `Option`
  values (`none` stands for NaN / NaT, i.e. an unparsable cell);
* machine floats are modelled by `ℚ`;
* a loaded table (`pd.DataFrame`) is a `List Record` in row order;
* the year-month bucket column `ym` added by `add_period` is modelled by
  `recYm`, including the fact that `pd.to_datetime(...).dt.to_period(M)`
  followed by `astype(str)` turns a missing date into the literal string
  `NaT`;
* pandas `sorted` over strings is code-point lexicographic order, embedded
  by `sortStr` below.
-/

/-! ### String ordering (Python `sorted` over year-month keys) -/

/-- Code-point lexicographic strict order on character lists, the order
Python uses to compare strings. -/
def charsLtb : List Char → List Char → Bool
  | [], [] => false
  | [], _ :: _ => true
  | _ :: _, [] => false
  | a :: as, b :: bs =>
    if a.toNat < b.toNat then true
    else if b.toNat < a.toNat then false
    else charsLtb as bs

/-- Non-strict code-point lexicographic order on strings. -/
def strLeb (a b : String) : Bool := !(charsLtb b.data a.data)

/-- Insert into a `strLeb`-sorted list of strings. -/
def insertStr (x : String) : List String → List String
  | [] => [x]
  | y :: ys => if strLeb x y then x :: y :: ys else y :: insertStr x ys

/-- Sort a list of strings ascending in code-point order; models Python
`sorted` on the deduplicated year-month keys. -/
def sortStr (l : List String) : List String := l.foldr insertStr []

/-! ### Python string primitives (`str.split` and `str.strip`),
re-implemented on character lists so that they compute -/

/-- Python whitespace for `str.strip()`: space, tab, LF, CR, VT, FF. -/
def isWsChar (c : Char) : Bool := [32, 9, 10, 13, 11, 12].contains c.toNat

/-- `str.strip()` on a character list: drop whitespace from both ends. -/
def trimChars (cs : List Char) : List Char :=
  ((cs.dropWhile isWsChar).reverse.dropWhile isWsChar).reverse

/-- `str.strip()`. -/
def stripStr (s : String) : String := String.mk (trimChars s.data)

/-- `str.split(sep)` for a one-character separator given by code point:
accumulate the current fragment, cut at each separator. -/
def splitChars (sep : Nat) : List Char → List Char → List (List Char)
  | [], acc => [acc.reverse]
  | c :: cs, acc =>
    if c.toNat = sep then acc.reverse :: splitChars sep cs []
    else splitChars sep cs (c :: acc)

/-- `str.split(sep)` on strings. -/
def splitStr (sep : Nat) (s : String) : List String :=
  (splitChars sep s.data []).map String.mk

/-! ### Data model: rows and records (`src/app.py` header schema, line 62) -/

/-- A calendar date as stored in the `fecha` column (`datetime.date`). -/
structure Fecha where
  y : Nat
  m : Nat
  d : Nat
deriving DecidableEq

/-- Lexicographic year/month/day comparison, the order of `datetime.date`. -/
def Fecha.leb (a b : Fecha) : Bool :=
  if a.y < b.y then true
  else if b.y < a.y then false
  else if a.m < b.m then true
  else if b.m < a.m then false
  else decide (a.d ≤ b.d)

/-- One raw spreadsheet row of the fixed schema
`id, fecha, categoria, monto, nota, tags, usuario, ts`.  The numeric and
date cells carry the result of the external parser: `none` means the cell
does not parse (NaN / NaT). -/
structure RawRow where
  id : Option Int
  fecha : Option Fecha
  categoria : String
  monto : Option ℚ
  nota : String
  tags : String
  usuario : String
  ts : String
deriving DecidableEq

/-- One typed row after `load_df_by_name` (lines 183-189): `monto` has been
coerced (`fillna(0)`), `fecha` keeps its missing marker. -/
structure Record where
  id : Option Int
  fecha : Option Fecha
  categoria : String
  monto : ℚ
  nota : String
  tags : String
  usuario : String
  ts : String
deriving DecidableEq

/-- The per-row type coercion of `load_df_by_name` (lines 185-188):
`monto` becomes `pd.to_numeric(errors=coerce).fillna(0)`, the other
columns are kept. -/
def coerceRow (r : RawRow) : Record :=
  { id := r.id, fecha := r.fecha, categoria := r.categoria,
    monto := r.monto.getD 0, nota := r.nota, tags := r.tags,
    usuario := r.usuario, ts := r.ts }

/-- `load_df_by_name` (lines 170-189).  The argument is the outcome of the
worksheet read: `Except.error` is any exception of the `try` block (caught
and turned into `values = []`, hence an empty frame), `Except.ok rows` is a
successful read of the data rows below the header. -/
def load_df_by_name : Except String (List RawRow) → List Record
  | Except.error _ => []
  | Except.ok rows => rows.map coerceRow

/-! ### Id/Append service (`next_id`, lines 192-199, and the
`submitted_g` flow, lines 227-246) -/

/-- Maximum of a nonempty `Int` column, as `Series.max()`. -/
def colMax : List Int → Int
  | [] => 0
  | x :: xs => xs.foldl max x

/-- `next_id` (lines 192-199): 1 on an empty table, otherwise the maximum
of the id column with unparsable ids replaced by 0
(`pd.to_numeric(errors=coerce).fillna(0).max()`), plus one. -/
def next_id (df : List Record) : Int :=
  if df.isEmpty then 1
  else colMax (df.map (fun r => r.id.getD 0)) + 1

/-- The expense submission flow (lines 227-246): if the validation
`monto_g > 0 and cat_g` passes, a row with id `next_id` over the freshly
loaded table is appended to the store (`append_row`, lines 202-204);
otherwise the store is unchanged.  Free-text fields are `strip()`-ped as
in the source. -/
def submitGasto (store : List RawRow) (fecha : Fecha) (cat : String)
    (monto : ℚ) (nota tg usuario ts : String) : List RawRow :=
  if 0 < monto ∧ cat ≠ "" then
    store ++ [{ id := some (next_id (load_df_by_name (Except.ok store))),
                fecha := some fecha, categoria := cat, monto := some monto,
                nota := stripStr nota, tags := stripStr tg,
                usuario := stripStr usuario, ts := ts }]
  else store

/-! ### Category suggestion lists and form validation (lines 146-150,
222, 228, 252, 258) -/

/-- The sidebar category lists (lines 149-150): split the text area on
newlines, strip each line, drop blank lines. -/
def parseCategorias (raw : String) : List String :=
  ((splitStr 10 raw).map stripStr).filter (fun c => c ≠ "")

/-- Options handed to the `Categoría` selectbox for expenses (line 222):
the configured list, or the built-in fallback when it is empty
(`categorias_g or [...]`). -/
def optionsGasto (raw : String) : List String :=
  let l := parseCategorias raw
  if l.isEmpty then ["Comida / Supermercado"] else l

/-- Options handed to the `Categoría` selectbox for income (line 252). -/
def optionsIngreso (raw : String) : List String :=
  let l := parseCategorias raw
  if l.isEmpty then ["Salario"] else l

/-- The submission check `monto > 0 and cat` (lines 228 and 258); Python
string truthiness makes the second conjunct `cat ≠ ""`. -/
def validSubmit (monto : ℚ) (cat : String) : Bool :=
  decide (0 < monto) && decide (cat ≠ "")

/-! ### Histórico filters (tab2, lines 297-305 for `gview` and 323-331
for `iview`; both blocks are literally the same pipeline) -/

/-- The mask `(fecha >= rango[0]) & (fecha <= rango[1])`: a missing date
compares `False` on both sides (NaT comparisons are `False` in pandas). -/
def fechaInRange (r : Record) (a b : Fecha) : Bool :=
  match r.fecha with
  | some d => Fecha.leb a d && Fecha.leb d b
  | none => false

/-- The pair of frames live in tab2: the loaded table `gdf` and the
derived view `gview`. -/
structure Tab2View where
  gdf : List Record
  gview : List Record
deriving DecidableEq

/-- The tab2 filter pipeline (lines 297-304, identically 323-330):
`gview = gdf.copy()`, then the date-range mask (applied only when the
widget value is a 2-tuple, modelled by `some`), then the category and
user `isin` filters, each skipped when its list is empty.  Only `gview`
is ever reassigned; `gdf` is the untouched input. -/
def hist_filter (gdf : List Record) (rango : Option (Fecha × Fecha))
    (cat_f user_f : List String) : Tab2View :=
  let v1 := match rango with
    | some p => gdf.filter (fun r => fechaInRange r p.1 p.2)
    | none => gdf
  let v2 := if cat_f.isEmpty then v1
            else v1.filter (fun r => cat_f.contains r.categoria)
  let v3 := if user_f.isEmpty then v2
            else v2.filter (fun r => user_f.contains r.usuario)
  { gdf := gdf, gview := v3 }

/-! ### Period bucketing (`add_period`, lines 340-345) -/

/-- Zero-padded month, as in the `YYYY-MM` rendering of a pandas
`Period`. -/
def pad2 (n : Nat) : String := if n < 10 then "0" ++ toString n else toString n

/-- `YYYY-MM` key of a parsed date. -/
def ymStr (d : Fecha) : String := toString d.y ++ "-" ++ pad2 d.m

/-- The `ym` column produced by `add_period` (line 344):
`pd.to_datetime(fecha).dt.to_period(M).astype(str)`.  A parsed date
renders as `YYYY-MM`; a missing date (NaT) renders as the literal string
`NaT` - `astype(str)` stringifies the missing marker instead of dropping
the row. -/
def recYm (r : Record) : String :=
  match r.fecha with
  | some d => ymStr d
  | none => "NaT"

/-- `all_months` (line 350): sorted set-union of the `ym` columns of the
two tables. -/
def allMonths (g i : List Record) : List String :=
  sortStr ((g.map recYm ++ i.map recYm).dedup)

/-- `df[df[ym].isin(sel)]`. -/
def selFilter (df : List Record) (sel : List String) : List Record :=
  df.filter (fun r => sel.contains (recYm r))

/-- `df[df[ym] == k][monto].sum()`. -/
def bucketSum (df : List Record) (k : String) : ℚ :=
  ((df.filter (fun r => recYm r == k)).map (fun r => r.monto)).sum

/-- The per-month sums `g_m` / `i_m` / `tg` / `ti` (lines 358-361 and
479-482): when the loaded table is empty, a frame of zeros over the
selected keys; otherwise `groupby(ym)[monto].sum()` of the
`isin`-filtered frame, whose keys come out sorted. -/
def month_sum_rows (df : List Record) (sel : List String) : List (String × ℚ) :=
  if df.isEmpty then sel.map (fun k => (k, 0))
  else (sortStr (((selFilter df sel).map recYm).dedup)).map
        (fun k => (k, bucketSum (selFilter df sel) k))

/-- Value of key `k` after the outer merge with `fillna(0)`. -/
def lookupQ (k : String) (l : List (String × ℚ)) : ℚ :=
  match l.find? (fun p => p.1 == k) with
  | some p => p.2
  | none => 0

/-- `pd.merge(g_m, i_m, on := ym, how := outer).fillna(0).sort_values(ym)`
(lines 362 and 484): one row `(ym, gastos, ingresos)` per key of either
side, keys sorted (they are pairwise distinct after the merge), missing
sums replaced by 0. -/
def summaryRows (g i : List Record) (sel : List String) : List (String × ℚ × ℚ) :=
  (sortStr (((month_sum_rows g sel).map Prod.fst
      ++ (month_sum_rows i sel).map Prod.fst).dedup)).map
    (fun k => (k, lookupQ k (month_sum_rows g sel), lookupQ k (month_sum_rows i sel)))

/-- One row of `resumen` (lines 362-363), with the derived
`balance = ingresos - gastos` column. -/
structure ResRow where
  ym : String
  gastos : ℚ
  ingresos : ℚ
  balance : ℚ
deriving DecidableEq

/-- `resumen` (lines 362-363). -/
def resumen (g i : List Record) (sel : List String) : List ResRow :=
  (summaryRows g i sel).map
    (fun t => { ym := t.1, gastos := t.2.1, ingresos := t.2.2,
                balance := t.2.2 - t.2.1 })

/-- One row of `base` (lines 373-376), with the section-A decomposition
columns. -/
structure BaseRow where
  ym : String
  gastos : ℚ
  ingresos : ℚ
  balance : ℚ
  gasto_base : ℚ
  ahorro : ℚ
  deficit : ℚ
deriving DecidableEq

/-- `base` (lines 373-376): `gasto_base = min(gastos, ingresos)` rowwise,
`ahorro = (ingresos - gastos).clip(lower := 0)`,
`deficit = (gastos - ingresos).clip(lower := 0)`. -/
def baseRows (g i : List Record) (sel : List String) : List BaseRow :=
  (resumen g i sel).map
    (fun row =>
      { ym := row.ym, gastos := row.gastos, ingresos := row.ingresos,
        balance := row.balance,
        gasto_base := min row.gastos row.ingresos,
        ahorro := max (row.ingresos - row.gastos) 0,
        deficit := max (row.gastos - row.ingresos) 0 })

/-- `trend_sel` (lines 476-477): the last `w` keys of the sorted
month-line (all of them when there are at most `w`). -/
def trendSel (g i : List Record) (w : Nat) : List String :=
  if (allMonths g i).length > w then
    (allMonths g i).drop ((allMonths g i).length - w)
  else allMonths g i

/-- Section E (lines 545-554): when `all_months` has at least two keys,
the metric deltas `(gasto, ingreso, balance)` between the last key and
the one before it; otherwise the insufficient-data message, modelled by
`none`. -/
def momComparison (g i : List Record) : Option (ℚ × ℚ × ℚ) :=
  match (allMonths g i).reverse with
  | lastM :: prevM :: _ =>
    some (bucketSum g lastM - bucketSum g prevM,
          bucketSum i lastM - bucketSum i prevM,
          (bucketSum i lastM - bucketSum g lastM)
            - (bucketSum i prevM - bucketSum g prevM))
  | _ => none

/-! ### Section B: per-category sums and percentage shares
(lines 424-432) -/

/-- `groupby(categoria)[monto].sum()` at one key of the `isin`-filtered
frame. -/
def catSum (df : List Record) (sel : List String) (c : String) : ℚ :=
  (((selFilter df sel).filter (fun r => r.categoria == c)).map
    (fun r => r.monto)).sum

/-- `g_cat` / `i_cat` (lines 424-427): an empty frame when the loaded
table is empty, otherwise one row per category of the filtered frame,
keys sorted by `groupby`. -/
def cat_rows (df : List Record) (sel : List String) : List (String × ℚ) :=
  if df.isEmpty then []
  else (sortStr (((selFilter df sel).map (fun r => r.categoria)).dedup)).map
        (fun c => (c, catSum df sel c))

/-- `g_cat[monto].sum()`: the denominator of the share column. -/
def catTotal (df : List Record) (sel : List String) : ℚ :=
  ((cat_rows df sel).map Prod.snd).sum

/-- The `pct` column (lines 430 and 432): `monto / monto.sum() * 100`,
with `fillna(0)` turning the 0/0 case into 0 (matched by `ℚ` division,
where division by zero is 0). -/
def pctShare (df : List Record) (sel : List String) (c : String) : ℚ :=
  catSum df sel c / catTotal df sel * 100

/-! ### Section D: tag fan-out (lines 518-541) -/

/-- Fragmenting one `tags` cell (line 523): split on commas, strip each
fragment, drop empty fragments. -/
def splitTags (s : String) : List String :=
  ((splitStr 44 s).map stripStr).filter (fun t => t ≠ "")

/-- The `exploded` rows (lines 521-526): one `(tag, monto)` row per
fragment of each record, the record full amount repeated once per
fragment. -/
def explodeTags (df : List Record) : List (String × ℚ) :=
  df.flatMap (fun r => (splitTags r.tags).map (fun t => (t, r.monto)))

/-- `tags_df.groupby(tag)[monto].sum()` at one tag. -/
def tagSum (df : List Record) (t : String) : ℚ :=
  (((explodeTags df).filter (fun p => p.1 == t)).map Prod.snd).sum

/-- The grouped tag totals, keys sorted by `groupby`. -/
def tag_rows (df : List Record) : List (String × ℚ) :=
  (sortStr (((explodeTags df).map Prod.fst).dedup)).map
    (fun t => (t, tagSum df t))

/-- Insert into a list sorted by amount descending. -/
def insertDescQ (x : String × ℚ) : List (String × ℚ) → List (String × ℚ)
  | [] => [x]
  | y :: ys => if y.2 ≤ x.2 then x :: y :: ys else y :: insertDescQ x ys

/-- `sort_values(monto, ascending := False)` over the grouped tag rows. -/
def sortDescQ (l : List (String × ℚ)) : List (String × ℚ) := l.foldr insertDescQ []

/-- `top_tags` (line 540): grouped totals sorted by amount descending,
first 10 rows. -/
def top_tags (df : List Record) : List (String × ℚ) :=
  (sortDescQ (tag_rows df)).take 10

/-! ### Distinct real year-month buckets (for the NaT finding) -/

/-- The distinct `YYYY-MM` buckets of records whose date actually
parses - the calendar buckets of the specification, which exclude the
`NaT` sentinel the code manufactures. -/
def properMonths (g i : List Record) : List String :=
  sortStr (((g ++ i).filterMap (fun r => r.fecha.map ymStr)).dedup)

/-! ### Concrete sample: one parsable and one unparsable date -/

/-- Two raw expense rows: a January 2024 expense of 10 and a row whose
date cell does not parse, amount 5. -/
def sampleRows : List RawRow :=
  [{ id := some 1, fecha := some { y := 2024, m := 1, d := 15 },
     categoria := "Comida", monto := some 10, nota := "", tags := "",
     usuario := "", ts := "" },
   { id := some 2, fecha := none,
     categoria := "Comida", monto := some 5, nota := "", tags := "",
     usuario := "", ts := "" }]

/-- The loaded expense table for `sampleRows`. -/
def sampleG : List Record := load_df_by_name (Except.ok sampleRows)

/-! ### Helper lemmas -/

lemma foldl_max_ge (xs : List Int) (a : Int) :
    a ≤ xs.foldl max a ∧ ∀ v ∈ xs, v ≤ xs.foldl max a := by
  induction xs generalizing a with
  | nil => simp
  | cons x xs ih =>
    refine ⟨le_trans (le_max_left a x) (ih (max a x)).1, ?_⟩
    intro v hv
    rcases List.mem_cons.1 hv with rfl | hv
    · exact le_trans (le_max_right a v) (ih (max a v)).1
    · exact (ih (max a x)).2 v hv

lemma foldl_max_mem (xs : List Int) (a : Int) :
    xs.foldl max a = a ∨ xs.foldl max a ∈ xs := by
  induction xs generalizing a with
  | nil => simp
  | cons x xs ih =>
    rcases ih (max a x) with h | h
    · rcases le_total a x with hax | hxa
      · right
        rw [List.foldl_cons, h, max_eq_right hax]
        exact List.mem_cons_self x xs
      · left
        rw [List.foldl_cons, h, max_eq_left hxa]
    · right
      exact List.mem_cons_of_mem x h

lemma sum_zero_of_nonneg {l : List ℚ} (h0 : ∀ x ∈ l, 0 ≤ x) (hs : l.sum = 0) :
    ∀ x ∈ l, x = 0 := by
  induction l with
  | nil => simp
  | cons y ys ih =>
    have hy : 0 ≤ y := h0 y (List.mem_cons_self y ys)
    have hys : 0 ≤ ys.sum := List.sum_nonneg (fun x hx => h0 x (List.mem_cons_of_mem y hx))
    rw [List.sum_cons] at hs
    have hy0 : y = 0 := by linarith
    have hsum0 : ys.sum = 0 := by linarith
    intro x hx
    rcases List.mem_cons.1 hx with rfl | hx
    · exact hy0
    · exact ih (fun z hz => h0 z (List.mem_cons_of_mem y hz)) hsum0 x hx

/-- C5: applying the tab2 filter pipeline to a loaded table leaves the
table itself untouched (the state still carries the very same `gdf`) and
produces the view as a fresh subsequence of it, for every combination of
date-range, category-set and user-set predicates. -/
theorem hist_filter_frame (gdf : List Record) (rango : Option (Fecha × Fecha))
    (cat_f user_f : List String) :
    (hist_filter gdf rango cat_f user_f).gdf = gdf ∧
    List.Sublist (hist_filter gdf rango cat_f user_f).gview gdf := by
  refine ⟨rfl, ?_⟩
  unfold hist_filter
  dsimp only
  have h2 : ∀ (l : List Record) (b : Bool) (p : Record → Bool),
      List.Sublist (if b then l else l.filter p) l := by
    intro l b p
    cases b
    · simp [List.filter_sublist]
    · simp
  have h1 : ∀ l : List Record, List.Sublist
      (match rango with
       | some p => l.filter (fun r => fechaInRange r p.1 p.2)
       | none => l) l := by
    intro l
    cases rango with
    | none => exact List.Sublist.refl l
    | some p => exact List.filter_sublist l
  exact (h2 _ _ _).trans ((h2 _ _ _).trans (h1 _))

/-- C9: the loader returns the empty table on any read failure instead of
propagating it, and on a successful read keeps every row (same length, no
drop), coercing an unparsable amount to 0 and passing all other fields
through unchanged. -/
theorem loader_fail_soft (e : String) (rows : List RawRow) (j : Nat)
    (h : j < rows.length) :
    load_df_by_name (Except.error e) = [] ∧
    (load_df_by_name (Except.ok rows)).length = rows.length ∧
    ∃ hj : j < (load_df_by_name (Except.ok rows)).length,
      ((load_df_by_name (Except.ok rows)).get ⟨j, hj⟩).monto
          = ((rows.get ⟨j, h⟩).monto).getD 0 ∧
      ((load_df_by_name (Except.ok rows)).get ⟨j, hj⟩).id = (rows.get ⟨j, h⟩).id ∧
      ((load_df_by_name (Except.ok rows)).get ⟨j, hj⟩).fecha = (rows.get ⟨j, h⟩).fecha ∧
      ((load_df_by_name (Except.ok rows)).get ⟨j, hj⟩).categoria = (rows.get ⟨j, h⟩).categoria ∧
      ((load_df_by_name (Except.ok rows)).get ⟨j, hj⟩).nota = (rows.get ⟨j, h⟩).nota ∧
      ((load_df_by_name (Except.ok rows)).get ⟨j, hj⟩).tags = (rows.get ⟨j, h⟩).tags ∧
      ((load_df_by_name (Except.ok rows)).get ⟨j, hj⟩).usuario = (rows.get ⟨j, h⟩).usuario ∧
      ((load_df_by_name (Except.ok rows)).get ⟨j, hj⟩).ts = (rows.get ⟨j, h⟩).ts := by
  refine ⟨rfl, by simp [load_df_by_name], ?_⟩
  have hj : j < (load_df_by_name (Except.ok rows)).length := by
    simpa [load_df_by_name] using h
  refine ⟨hj, ?_⟩
  simp [load_df_by_name, coerceRow]

/-- C9 witness: concrete instance with one row whose amount cell does not
parse; the loader keeps the row and the error branch yields the empty
table. -/
theorem loader_fail_soft_witness :
    (0 : Nat) < ([RawRow.mk none none ("x") none ("") ("") ("") ("")] : List RawRow).length ∧
    load_df_by_name (Except.error ("boom")) = [] ∧
    (load_df_by_name (Except.ok [RawRow.mk none none ("x") none ("") ("") ("") ("")])).length
      = ([RawRow.mk none none ("x") none ("") ("") ("") ("")] : List RawRow).length :=
  ⟨by decide,
   (loader_fail_soft ("boom") [RawRow.mk none none ("x") none ("") ("") ("") ("")] 0 (by decide)).1,
   (loader_fail_soft ("boom") [RawRow.mk none none ("x") none ("") ("") ("") ("")] 0 (by decide)).2.1⟩

/-- C10: the category selectbox options are always a nonempty list of
nonempty labels (configured list or built-in fallback), so the
`monto > 0 and cat` submission check reduces to the amount test alone:
a record is rejected exactly when its amount is not strictly positive. -/
theorem category_check_unreachable (rawG rawI : String) (jG jI : Nat) (monto : ℚ)
    (hG : jG < (optionsGasto rawG).length) (hI : jI < (optionsIngreso rawI).length) :
    optionsGasto rawG ≠ [] ∧ optionsIngreso rawI ≠ [] ∧
    (∀ c ∈ optionsGasto rawG, c ≠ "") ∧
    (∀ c ∈ optionsIngreso rawI, c ≠ "") ∧
    (validSubmit monto ((optionsGasto rawG).get ⟨jG, hG⟩) = true ↔ 0 < monto) ∧
    (validSubmit monto ((optionsIngreso rawI).get ⟨jI, hI⟩) = true ↔ 0 < monto) := by
  have hparse : ∀ raw : String, ∀ c ∈ parseCategorias raw, c ≠ "" := by
    intro raw c hc
    exact of_decide_eq_true (List.mem_filter.1 hc).2
  have key : ∀ (l fb : List String), fb ≠ [] → (∀ c ∈ fb, c ≠ "") →
      (∀ c ∈ l, c ≠ "") →
      ((if l.isEmpty then fb else l) ≠ [] ∧
        ∀ c ∈ (if l.isEmpty then fb else l), c ≠ "") := by
    intro l fb hfb hfbne hlne
    by_cases hemp : l.isEmpty
    · simpa [hemp] using ⟨hfb, hfbne⟩
    · have : l ≠ [] := by
        intro hcon
        rw [hcon] at hemp
        exact hemp rfl
      simpa [hemp] using ⟨this, hlne⟩
  have hg := key (parseCategorias rawG) ["Comida / Supermercado"] (by decide)
    (by decide) (hparse rawG)
  have hi := key (parseCategorias rawI) ["Salario"] (by decide)
    (by decide) (hparse rawI)
  have hval : ∀ (c : String), c ≠ "" → (validSubmit monto c = true ↔ 0 < monto) := by
    intro c hc
    unfold validSubmit
    simp [hc]
  refine ⟨hg.1, hi.1, hg.2, hi.2, ?_, ?_⟩
  · exact hval _ (hg.2 _ (List.get_mem _ _ _))
  · exact hval _ (hi.2 _ (List.get_mem _ _ _))

/-- C10 witness: with empty configured lists the fallback options are
served; the only option is nonempty and the check accepts amount 7. -/
theorem category_check_unreachable_witness :
    (0 : Nat) < (optionsGasto ("")).length ∧
    (0 : Nat) < (optionsIngreso ("")).length ∧
    (validSubmit 7 ((optionsGasto ("")).get ⟨0, by decide⟩) = true ↔ (0 : ℚ) < 7) :=
  ⟨by decide, by decide,
   (category_check_unreachable ("") ("") 0 0 7 (by decide) (by decide)).2.2.2.2.1⟩

/-! ### C3: id assignment and the append/load round trip -/

lemma next_id_empty (df : List Record) (h : df = []) : next_id df = 1 := by
  simp [next_id, h]

lemma next_id_max (df : List Record) (h : df ≠ []) :
    ∃ mx ∈ df.map (fun r => r.id.getD 0),
      (∀ v ∈ df.map (fun r => r.id.getD 0), v ≤ mx) ∧ next_id df = mx + 1 := by
  cases df with
  | nil => exact absurd rfl h
  | cons a l =>
    refine ⟨colMax ((a :: l).map (fun r => r.id.getD 0)), ?_, ?_, ?_⟩
    · simp only [List.map_cons, colMax]
      rcases foldl_max_mem (l.map (fun r => r.id.getD 0)) (a.id.getD 0) with h1 | h1
      · rw [h1]
        exact List.mem_cons_self _ _
      · exact List.mem_cons_of_mem _ h1
    · intro v hv
      simp only [List.map_cons, colMax] at hv ⊢
      rcases List.mem_cons.1 hv with rfl | hv
      · exact (foldl_max_ge _ _).1
      · exact (foldl_max_ge _ _).2 v hv
    · simp [next_id]

lemma next_id_gt (df : List Record) :
    ∀ r ∈ df, ∀ v : Int, r.id = some v → v < next_id df := by
  intro r hr v hv
  have hne : df ≠ [] := by
    intro hcon
    rw [hcon] at hr
    exact absurd hr (List.not_mem_nil r)
  obtain ⟨mx, hmem, hle, heq⟩ := next_id_max df hne
  have h1 : r.id.getD 0 ∈ df.map (fun s => s.id.getD 0) := List.mem_map_of_mem _ hr
  have h2 : r.id.getD 0 = v := by rw [hv]; rfl
  have h3 : v ≤ mx := h2 ▸ hle _ h1
  rw [heq]
  omega

/-- C3: `next_id` is 1 on an empty table and otherwise the maximum
numeric id (unparsable ids counted as 0) plus one; the assigned id is
strictly greater than every numeric id present before the append, and the
appended record - with the validated field values and the fresh id - is
found in the table loaded after the append. -/
theorem next_id_append (store : List RawRow) (fecha : Fecha) (cat : String)
    (monto : ℚ) (nota tg usuario ts : String) (hm : 0 < monto) (hc : cat ≠ "") :
    (load_df_by_name (Except.ok store) = [] →
        next_id (load_df_by_name (Except.ok store)) = 1) ∧
    (load_df_by_name (Except.ok store) ≠ [] →
      ∃ mx ∈ (load_df_by_name (Except.ok store)).map (fun r => r.id.getD 0),
        (∀ v ∈ (load_df_by_name (Except.ok store)).map (fun r => r.id.getD 0), v ≤ mx) ∧
        next_id (load_df_by_name (Except.ok store)) = mx + 1) ∧
    (∀ r ∈ load_df_by_name (Except.ok store), ∀ v : Int, r.id = some v →
        v < next_id (load_df_by_name (Except.ok store))) ∧
    (Record.mk (some (next_id (load_df_by_name (Except.ok store)))) (some fecha) cat monto
        (stripStr nota) (stripStr tg) (stripStr usuario) ts)
      ∈ load_df_by_name (Except.ok (submitGasto store fecha cat monto nota tg usuario ts)) := by
  refine ⟨next_id_empty _, next_id_max _, next_id_gt _, ?_⟩
  unfold submitGasto
  rw [if_pos ⟨hm, hc⟩]
  simp only [load_df_by_name]
  rw [List.map_append]
  apply List.mem_append_right
  simp [coerceRow]

/-- Store used by the C3 witness: one parsable id 3 and one row whose id
cell does not parse. -/
def storeSample : List RawRow :=
  [RawRow.mk (some 3) (some (Fecha.mk 2024 1 10)) ("Comida") (some 5) ("") ("") ("") (""),
   RawRow.mk none none ("Otros") none ("") ("") ("") ("")]

/-- C3 witness: appending a validated expense of 50 to `storeSample`
assigns id 4 = max(3, 0) + 1 and the loaded table contains the record. -/
theorem next_id_append_witness :
    (0 : ℚ) < 50 ∧ ("Comida" : String) ≠ "" ∧
    next_id (load_df_by_name (Except.ok storeSample)) = 4 ∧
    (Record.mk (some (next_id (load_df_by_name (Except.ok storeSample))))
        (some (Fecha.mk 2024 2 2)) ("Comida") 50
        (stripStr ("")) (stripStr ("")) (stripStr ("")) (""))
      ∈ load_df_by_name (Except.ok
          (submitGasto storeSample (Fecha.mk 2024 2 2) ("Comida") 50 ("") ("") ("") (""))) :=
  ⟨by norm_num, by decide, by decide,
   (next_id_append storeSample (Fecha.mk 2024 2 2) ("Comida") 50 ("") ("") ("") ("")
      (by norm_num) (by decide)).2.2.2⟩

/-! ### C2: the section-A decomposition -/

lemma decomp_arith (e inc : ℚ) :
    (0 ≤ inc - e → min e inc + max (inc - e) 0 = inc) ∧
    (inc - e < 0 → min e inc = inc ∧ max (e - inc) 0 = e - inc) := by
  constructor
  · intro h
    have he : e ≤ inc := by linarith
    rw [min_eq_left he, max_eq_left h]
    ring
  · intro h
    have he : inc ≤ e := by linarith
    have h0 : (0 : ℚ) ≤ e - inc := by linarith
    exact ⟨min_eq_right he, max_eq_left h0⟩

/-- C2: every row of the section-A frame `base` satisfies the derived
decomposition: `gasto_base` is the pointwise minimum, `ahorro` and
`deficit` are the clipped positive and negative parts of the balance, and
they recombine with the income sum according to the balance sign. -/
theorem base_decomposition (g i : List Record) (sel : List String) (row : BaseRow)
    (hrow : row ∈ baseRows g i sel) (hg : 0 ≤ row.gastos) (hi : 0 ≤ row.ingresos) :
    row.gasto_base = min row.gastos row.ingresos ∧
    row.ahorro = max row.balance 0 ∧
    row.deficit = max (-row.balance) 0 ∧
    row.balance = row.ingresos - row.gastos ∧
    (0 ≤ row.balance → row.gasto_base + row.ahorro = row.ingresos) ∧
    (row.balance < 0 →
      row.gasto_base = row.ingresos ∧ row.deficit = row.gastos - row.ingresos) := by
  obtain ⟨rr, hrr, rfl⟩ := List.mem_map.1 hrow
  obtain ⟨t, ht, rfl⟩ := List.mem_map.1 hrr
  dsimp only
  refine ⟨rfl, rfl, by rw [neg_sub], rfl, ?_, ?_⟩
  · intro hb
    exact (decomp_arith t.2.1 t.2.2).1 hb
  · intro hb
    exact (decomp_arith t.2.1 t.2.2).2 hb

/-- Expense table of the C2 witness: a single January 2024 expense of
1200. -/
def gastoUnico : List Record := load_df_by_name (Except.ok
  [RawRow.mk (some 1) (some (Fecha.mk 2024 1 15)) ("Comida") (some 1200) ("") ("") ("") ("")])

/-- Income table of the C2 witness: a single January 2024 income of
1000. -/
def ingresoUnico : List Record := load_df_by_name (Except.ok
  [RawRow.mk (some 1) (some (Fecha.mk 2024 1 1)) ("Salario") (some 1000) ("") ("") ("") ("")])

/-- The `base` row produced for that scenario: balance -200, expense
within income 1000, savings 0, deficit 200. -/
def wRow : BaseRow := BaseRow.mk ("2024-01") 1200 1000 (-200) 1000 0 200

/-- C2 witness: the spec scenario (income 1000, expense 1200, same
bucket) instantiates the decomposition theorem in the deficit branch. -/
theorem base_decomposition_witness :
    wRow ∈ baseRows gastoUnico ingresoUnico (["2024-01"]) ∧
    (0 ≤ wRow.gastos ∧ 0 ≤ wRow.ingresos) ∧
    (wRow.balance < 0 →
      wRow.gasto_base = wRow.ingresos ∧ wRow.deficit = wRow.gastos - wRow.ingresos) := by
  have hbg : bucketSum gastoUnico ("2024-01") = 1200 := by
    unfold bucketSum
    rw [show gastoUnico.filter (fun r => recYm r == "2024-01") = gastoUnico from by decide]
    norm_num [gastoUnico, load_df_by_name, coerceRow]
  have hbi : bucketSum ingresoUnico ("2024-01") = 1000 := by
    unfold bucketSum
    rw [show ingresoUnico.filter (fun r => recYm r == "2024-01") = ingresoUnico from by decide]
    norm_num [ingresoUnico, load_df_by_name, coerceRow]
  have hg : month_sum_rows gastoUnico (["2024-01"]) = [(("2024-01"), (1200 : ℚ))] := by
    unfold month_sum_rows
    rw [if_neg (by decide)]
    rw [show selFilter gastoUnico (["2024-01"]) = gastoUnico from by decide]
    rw [show sortStr ((gastoUnico.map recYm).dedup) = ["2024-01"] from by decide]
    simp only [List.map_cons, List.map_nil]
    rw [hbg]
  have hi : month_sum_rows ingresoUnico (["2024-01"]) = [(("2024-01"), (1000 : ℚ))] := by
    unfold month_sum_rows
    rw [if_neg (by decide)]
    rw [show selFilter ingresoUnico (["2024-01"]) = ingresoUnico from by decide]
    rw [show sortStr ((ingresoUnico.map recYm).dedup) = ["2024-01"] from by decide]
    simp only [List.map_cons, List.map_nil]
    rw [hbi]
  have hsum : summaryRows gastoUnico ingresoUnico (["2024-01"])
      = [(("2024-01"), (1200 : ℚ), (1000 : ℚ))] := by
    unfold summaryRows
    rw [hg, hi]
    decide
  have hres : resumen gastoUnico ingresoUnico (["2024-01"])
      = [ResRow.mk ("2024-01") 1200 1000 (-200)] := by
    unfold resumen
    rw [hsum]
    simp only [List.map_cons, List.map_nil]
    norm_num
  have hbase : baseRows gastoUnico ingresoUnico (["2024-01"]) = [wRow] := by
    unfold baseRows
    rw [hres]
    simp only [List.map_cons, List.map_nil]
    norm_num [wRow, min_def, max_def]
  have hmem : wRow ∈ baseRows gastoUnico ingresoUnico (["2024-01"]) := by
    rw [hbase]
    exact List.mem_singleton.2 rfl
  refine ⟨hmem, ⟨by norm_num [wRow], by norm_num [wRow]⟩, ?_⟩
  exact (base_decomposition gastoUnico ingresoUnico (["2024-01"]) wRow hmem
    (by norm_num [wRow]) (by norm_num [wRow])).2.2.2.2.2

/-! ### C8: category percentage shares -/

lemma sum_map_mul_const (l : List String) (f : String → ℚ) (c : ℚ) :
    (l.map (fun a => f a * c)).sum = (l.map f).sum * c := by
  induction l with
  | nil => simp
  | cons x xs ih =>
    simp [ih]
    ring

/-- C8: over any table with nonnegative amounts, a nonempty per-category
breakdown has percentage shares that sum to exactly 100 when the selected
period total is nonzero, and all-zero sums and shares when the total is
zero; division is total in the model, so no division error can occur. -/
theorem category_pct_shares (df : List Record) (sel : List String)
    (hpos : ∀ r ∈ df, 0 ≤ r.monto) (hne : cat_rows df sel ≠ []) :
    (catTotal df sel ≠ 0 →
      ((cat_rows df sel).map (fun p => pctShare df sel p.1)).sum = 100) ∧
    (catTotal df sel = 0 → ∀ p ∈ cat_rows df sel,
      catSum df sel p.1 = 0 ∧ pctShare df sel p.1 = 0) := by
  have hdf : ¬ df.isEmpty = true := by
    intro hcon
    exact hne (by simp [cat_rows, hcon])
  have hcr : cat_rows df sel
      = (sortStr (((selFilter df sel).map (fun r => r.categoria)).dedup)).map
          (fun c => (c, catSum df sel c)) := by
    simp [cat_rows, hdf]
  have htot : catTotal df sel
      = ((sortStr (((selFilter df sel).map (fun r => r.categoria)).dedup)).map
          (fun c => catSum df sel c)).sum := by
    unfold catTotal
    rw [hcr, List.map_map]
    rfl
  constructor
  · intro hT
    rw [hcr, List.map_map]
    have hfun : ((fun p : String × ℚ => pctShare df sel p.1)
        ∘ (fun c => (c, catSum df sel c)))
        = fun c => catSum df sel c * (100 / catTotal df sel) := by
      funext c
      simp only [Function.comp, pctShare]
      ring
    rw [hfun, sum_map_mul_const, ← htot, mul_comm, div_mul_cancel₀ _ hT]
  · intro hT p hp
    rw [hcr] at hp
    obtain ⟨c, hcK, rfl⟩ := List.mem_map.1 hp
    have hnn : ∀ x ∈ (sortStr (((selFilter df sel).map (fun r => r.categoria)).dedup)).map
        (fun c => catSum df sel c), 0 ≤ x := by
      intro x hx
      obtain ⟨c2, hc2, rfl⟩ := List.mem_map.1 hx
      unfold catSum
      apply List.sum_nonneg
      intro q hq
      obtain ⟨r, hrmem, rfl⟩ := List.mem_map.1 hq
      have h1 := (List.mem_filter.1 hrmem).1
      simp only [selFilter] at h1
      exact hpos r (List.mem_filter.1 h1).1
    have hz := sum_zero_of_nonneg hnn (by rw [← htot]; exact hT)
    have hc0 : catSum df sel c = 0 := hz _ (List.mem_map_of_mem _ hcK)
    exact ⟨hc0, by simp [pctShare, hc0]⟩

/-- Table of the C8 witness: two January 2024 expenses, 30 on one
category and 70 on another. -/
def catDos : List Record := load_df_by_name (Except.ok
  [RawRow.mk (some 1) (some (Fecha.mk 2024 1 5)) ("Comida") (some 30) ("") ("") ("") (""),
   RawRow.mk (some 2) (some (Fecha.mk 2024 1 6)) ("Transporte") (some 70) ("") ("") ("") ("")])

/-- C8 witness: the breakdown 30/70 over total 100 has shares summing to
exactly 100. -/
theorem category_pct_shares_witness :
    (∀ r ∈ catDos, 0 ≤ r.monto) ∧ cat_rows catDos (["2024-01"]) ≠ [] ∧
    catTotal catDos (["2024-01"]) ≠ 0 ∧
    ((cat_rows catDos (["2024-01"])).map
        (fun p => pctShare catDos (["2024-01"]) p.1)).sum = 100 := by
  have e1 : catSum catDos (["2024-01"]) ("Comida") = 30 := by
    unfold catSum
    rw [show (selFilter catDos (["2024-01"])).filter (fun r => r.categoria == "Comida")
          = [Record.mk (some 1) (some (Fecha.mk 2024 1 5)) ("Comida") 30 ("") ("") ("") ("")]
        from by decide]
    norm_num
  have e2 : catSum catDos (["2024-01"]) ("Transporte") = 70 := by
    unfold catSum
    rw [show (selFilter catDos (["2024-01"])).filter (fun r => r.categoria == "Transporte")
          = [Record.mk (some 2) (some (Fecha.mk 2024 1 6)) ("Transporte") 70 ("") ("") ("") ("")]
        from by decide]
    norm_num
  have ecat : cat_rows catDos (["2024-01"]) = [(("Comida"), (30 : ℚ)), (("Transporte"), (70 : ℚ))] := by
    unfold cat_rows
    rw [if_neg (by decide)]
    rw [show sortStr (((selFilter catDos (["2024-01"])).map (fun r => r.categoria)).dedup)
          = ["Comida", "Transporte"] from by decide]
    simp only [List.map_cons, List.map_nil]
    rw [e1, e2]
  have hT : catTotal catDos (["2024-01"]) = 100 := by
    unfold catTotal
    rw [ecat]
    norm_num
  have hTne : catTotal catDos (["2024-01"]) ≠ 0 := by
    rw [hT]
    norm_num
  have hpos : ∀ r ∈ catDos, 0 ≤ r.monto := by decide
  have hne : cat_rows catDos (["2024-01"]) ≠ [] := by
    rw [ecat]
    simp
  exact ⟨hpos, hne, hTne, (category_pct_shares catDos (["2024-01"]) hpos hne).1 hTne⟩

/-! ### C6: tag fan-out and top tags -/

lemma mem_insertDescQ {p x : String × ℚ} {l : List (String × ℚ)} :
    p ∈ insertDescQ x l ↔ p = x ∨ p ∈ l := by
  induction l with
  | nil => simp [insertDescQ]
  | cons y ys ih =>
    unfold insertDescQ
    by_cases h : y.2 ≤ x.2
    · simp [h]
    · simp only [h, if_false, List.mem_cons, ih]
      tauto

lemma pairwise_insertDescQ {x : String × ℚ} {l : List (String × ℚ)}
    (h : l.Pairwise (fun a b => b.2 ≤ a.2)) :
    (insertDescQ x l).Pairwise (fun a b => b.2 ≤ a.2) := by
  induction l with
  | nil => simp [insertDescQ]
  | cons y ys ih =>
    rcases List.pairwise_cons.1 h with ⟨hy, hys⟩
    unfold insertDescQ
    by_cases hc : y.2 ≤ x.2
    · rw [if_pos hc]
      refine List.pairwise_cons.2 ⟨?_, h⟩
      intro z hz
      rcases List.mem_cons.1 hz with rfl | hz
      · exact hc
      · exact le_trans (hy z hz) hc
    · rw [if_neg hc]
      refine List.pairwise_cons.2 ⟨?_, ih hys⟩
      intro z hz
      rcases mem_insertDescQ.1 hz with rfl | hz
      · exact le_of_lt (lt_of_not_le hc)
      · exact hy z hz

lemma pairwise_sortDescQ (l : List (String × ℚ)) :
    (sortDescQ l).Pairwise (fun a b => b.2 ≤ a.2) := by
  induction l with
  | nil => simp [sortDescQ]
  | cons x xs ih => exact pairwise_insertDescQ ih

lemma mem_sortDescQ {p : String × ℚ} {l : List (String × ℚ)} :
    p ∈ sortDescQ l ↔ p ∈ l := by
  induction l with
  | nil => simp [sortDescQ]
  | cons x xs ih =>
    show p ∈ insertDescQ x (sortDescQ xs) ↔ _
    rw [mem_insertDescQ, ih]
    simp [List.mem_cons]

lemma pairs_filter_sum (l : List String) (q : ℚ) (t : String) :
    (((l.map (fun s => (s, q))).filter (fun p => p.1 == t)).map Prod.snd).sum
      = ((l.filter (fun s => s == t)).length : ℚ) * q := by
  induction l with
  | nil => simp
  | cons s ls ih =>
    by_cases h : s = t
    · subst h
      simp [List.filter_cons, ih]
      ring
    · simp [List.filter_cons, h, ih]

lemma tagSum_fanout (df : List Record) (t : String) :
    tagSum df t = (df.map (fun r =>
      (((splitTags r.tags).filter (fun s => s == t)).length : ℚ) * r.monto)).sum := by
  induction df with
  | nil => simp [tagSum, explodeTags]
  | cons r ds ih =>
    unfold tagSum explodeTags
    simp only [List.flatMap_cons, List.filter_append, List.map_append, List.sum_append,
      List.map_cons, List.sum_cons]
    rw [pairs_filter_sum]
    unfold tagSum explodeTags at ih
    rw [ih]

/-- C6: the tag expander splits on commas, strips, discards empties and
attributes the full record amount once per fragment, duplicates counted
cumulatively: the single record (amount 100, tags `food, food`) yields
exactly the top-tag row (`food`, 200); in general the grouped total of a
tag is the sum over the records of fragment-count times amount, and the
output is at most ten rows, sorted by summed amount descending, each
carrying its tag grouped total. -/
theorem tag_expander_fanout :
    top_tags [Record.mk none none ("c") 100 ("") ("food, food") ("") ("")]
        = [(("food"), (200 : ℚ))] ∧
    (∀ df : List Record, (top_tags df).length ≤ 10 ∧
      (top_tags df).Pairwise (fun a b => b.2 ≤ a.2) ∧
      ∀ p ∈ top_tags df, p.2 = tagSum df p.1) ∧
    (∀ (df : List Record) (t : String), tagSum df t
        = (df.map (fun r =>
            (((splitTags r.tags).filter (fun s => s == t)).length : ℚ) * r.monto)).sum) := by
  refine ⟨?_, ?_, fun df t => tagSum_fanout df t⟩
  · have h1 : tagSum [Record.mk none none ("c") 100 ("") ("food, food") ("") ("")] ("food")
        = 200 := by
      unfold tagSum
      rw [show (explodeTags [Record.mk none none ("c") 100 ("") ("food, food") ("") ("")]).filter
            (fun p => p.1 == "food")
            = [(("food"), (100 : ℚ)), (("food"), (100 : ℚ))] from by decide]
      norm_num
    have h2 : tag_rows [Record.mk none none ("c") 100 ("") ("food, food") ("") ("")]
        = [(("food"), (200 : ℚ))] := by
      unfold tag_rows
      rw [show sortStr (((explodeTags
            [Record.mk none none ("c") 100 ("") ("food, food") ("") ("")]).map Prod.fst).dedup)
          = ["food"] from by decide]
      simp only [List.map_cons, List.map_nil]
      rw [h1]
    unfold top_tags
    rw [h2]
    decide
  · intro df
    refine ⟨?_, ?_, ?_⟩
    · unfold top_tags
      simp [List.length_take_le 10 (sortDescQ (tag_rows df))]
    · exact List.Pairwise.sublist (List.take_sublist 10 _) (pairwise_sortDescQ _)
    · intro p hp
      have hp2 : p ∈ sortDescQ (tag_rows df) := List.take_subset 10 _ hp
      have hp3 : p ∈ tag_rows df := mem_sortDescQ.1 hp2
      obtain ⟨t, ht, rfl⟩ := List.mem_map.1 hp3
      rfl

/-! ### C1 and C7: the NaT pseudo-bucket created for unparsable dates -/

/-- C1 (the code diverges from the exclusion policy here): a record whose
date cell does not parse is assigned the literal bucket string `NaT` by
`add_period`; with one parsable and one unparsable expense row, `NaT`
appears in `all_months` (sorted after every real year-month key), is part
of the trend-series selection, carries the bad row amount 5 in the trend
summary rows, and is compared as the most recent bucket by section E
instead of being excluded. -/
theorem nat_bucket_in_aggregations :
    recYm (Record.mk (some 2) none ("Comida") 5 ("") ("") ("") ("")) = "NaT" ∧
    allMonths sampleG [] = ["2024-01", "NaT"] ∧
    trendSel sampleG [] 6 = ["2024-01", "NaT"] ∧
    (("NaT"), (5 : ℚ), (0 : ℚ)) ∈ summaryRows sampleG [] (trendSel sampleG [] 6) ∧
    momComparison sampleG [] = some (-5, 0, 5) := by
  have hb1 : bucketSum sampleG ("2024-01") = 10 := by
    unfold bucketSum
    rw [show sampleG.filter (fun r => recYm r == "2024-01")
          = [Record.mk (some 1) (some (Fecha.mk 2024 1 15)) ("Comida") 10 ("") ("") ("") ("")]
        from by decide]
    norm_num
  have hb2 : bucketSum sampleG ("NaT") = 5 := by
    unfold bucketSum
    rw [show sampleG.filter (fun r => recYm r == "NaT")
          = [Record.mk (some 2) none ("Comida") 5 ("") ("") ("") ("")] from by decide]
    norm_num
  have hts : trendSel sampleG [] 6 = ["2024-01", "NaT"] := by decide
  have hg : month_sum_rows sampleG (["2024-01", "NaT"])
      = [(("2024-01"), (10 : ℚ)), (("NaT"), (5 : ℚ))] := by
    unfold month_sum_rows
    rw [if_neg (by decide)]
    rw [show selFilter sampleG (["2024-01", "NaT"]) = sampleG from by decide]
    rw [show sortStr ((sampleG.map recYm).dedup) = ["2024-01", "NaT"] from by decide]
    simp only [List.map_cons, List.map_nil]
    rw [hb1, hb2]
  have hi : month_sum_rows ([] : List Record) (["2024-01", "NaT"])
      = [(("2024-01"), (0 : ℚ)), (("NaT"), (0 : ℚ))] := by decide
  have hs : summaryRows sampleG [] (["2024-01", "NaT"])
      = [(("2024-01"), (10 : ℚ), (0 : ℚ)), (("NaT"), (5 : ℚ), (0 : ℚ))] := by
    unfold summaryRows
    rw [hg, hi]
    decide
  refine ⟨by decide, by decide, hts, ?_, ?_⟩
  · rw [hts, hs]
    decide
  · have hz : ∀ k, bucketSum ([] : List Record) k = 0 := by
      intro k
      simp [bucketSum]
    unfold momComparison
    rw [show (allMonths sampleG []).reverse = ["NaT", "2024-01"] from by decide]
    simp only [hb1, hb2, hz]
    norm_num

/-- C7 (same code slip as C1): the comparison is skipped exactly when the
key list has fewer than two entries, but the key list counts the `NaT`
pseudo-bucket: on a table with a single real year-month bucket plus one
unparsable-date row, section E still produces a delta - against `NaT` -
although only one calendar bucket exists. -/
theorem mom_comparison_nat_bucket (g i : List Record) :
    (2 ≤ (allMonths g i).length ∨ momComparison g i = none) ∧
    properMonths sampleG [] = ["2024-01"] ∧
    momComparison sampleG [] ≠ none := by
  refine ⟨?_, by decide, ?_⟩
  · rcases h : (allMonths g i).reverse with _ | ⟨a, rest⟩
    · right
      unfold momComparison
      rw [h]
    · rcases rest with _ | ⟨b, rest2⟩
      · right
        unfold momComparison
        rw [h]
      · left
        have : (allMonths g i).reverse.length = (allMonths g i).length := List.length_reverse _
        rw [← this, h]
        simp
  · unfold momComparison
    rw [show (allMonths sampleG []).reverse = ["NaT", "2024-01"] from by decide]
    simp
